import Mathlib

/-!
Verification of the LambdaSpaceAPIv2 core: a shallow embedding of the
occupancy-status updater (`updateStatus`), the event extractor inside
`getScheduledEvents`, and the fetch-and-refresh path (`fetchHTTPResource`,
`getScheduledEvents`), translated from the Go source.

Modelling conventions:
- Go runtime panics (index out of range, nil-pointer dereference) are made
  explicit as the `GoPanic` error of an `Except`.
- `strings.Fields` is reimplemented character by character (split on
  whitespace, dropping empty pieces).
- The regexes `^\d\d\/\d\d\/\d\d\d\d` and `^\d\d:\d\d` are anchored at the
  start only, so `MatchString` is a check on the first characters of the
  token; `matchesYear` / `matchesHour` below implement exactly that.
- `json.Unmarshal` and the network are external collaborators; they enter
  the model as an explicit decode function and a `FetchResult` outcome.
-/

/-- The Go runtime failures that the translated code can hit. -/
inductive GoPanic where
  | indexOutOfRange
  | nilDereference
  deriving Repr, DecidableEq

/-- Whitespace in the sense of Go's `unicode.IsSpace`, restricted to the
ASCII space characters (the only ones relevant to the source's inputs). -/
def isSpaceChar (c : Char) : Bool :=
  c = ' ' || c = '\t' || c = '\n' || c = '\r' ||
  c = Char.ofNat 11 || c = Char.ofNat 12

/-- Worker for `fieldsOf`: `cur` is the current (reversed) word being
accumulated, `cs` the remaining characters. -/
def fieldsRun (cur : List Char) : List Char → List String
  | [] => if cur.isEmpty then [] else [String.mk cur.reverse]
  | c :: rest =>
    if isSpaceChar c then
      if cur.isEmpty then fieldsRun [] rest
      else String.mk cur.reverse :: fieldsRun [] rest
    else
      fieldsRun (c :: cur) rest

/-- `strings.Fields`: split around runs of whitespace, no empty fields. -/
def fieldsOf (s : String) : List String :=
  fieldsRun [] s.data

/-- `yearRegexp.MatchString`: the regex `^\d\d\/\d\d\/\d\d\d\d` matches iff
the string starts with two digits, a slash, two digits, a slash and four
digits.  There is no end anchor: trailing characters are ignored. -/
def matchesYear (s : String) : Bool :=
  match s.data with
  | a :: b :: c :: d :: e :: f :: g :: h :: i :: j :: _ =>
    a.isDigit && b.isDigit && c = '/' && d.isDigit && e.isDigit &&
    f = '/' && g.isDigit && h.isDigit && i.isDigit && j.isDigit
  | _ => false

/-- `hourRegexp.MatchString`: the regex `^\d\d:\d\d` matches iff the string
starts with two digits, a colon and two digits; trailing characters are
ignored (no end anchor). -/
def matchesHour (s : String) : Bool :=
  match s.data with
  | a :: b :: c :: d :: e :: _ =>
    a.isDigit && b.isDigit && c = ':' && d.isDigit && e.isDigit
  | _ => false

/-- `strings.Join(l, " ")`. -/
def joinSpace : List String → String
  | [] => ""
  | [s] => s
  | s :: rest => s ++ " " ++ joinSpace rest

/-- One entry of `DiscourseApi.TopicList.Topics`. -/
structure Topic where
  id : Int
  title : String
  slug : String
  deriving Repr, DecidableEq

/-- The `HackerspaceEvents` record.  Go's field `End` is spelled `endTime`
here because `end` is a Lean keyword. -/
structure HackerspaceEvents where
  title : String
  date : String
  begin : String
  endTime : String
  url : String
  deriving Repr, DecidableEq

/-- `fmt.Sprintf("https://community.lambdaspace.gr/t/%s/%v", slug, id)`. -/
def eventURL (slug : String) (id : Int) : String :=
  "https://community.lambdaspace.gr/t/" ++ slug ++ "/" ++ toString id

/-- One iteration of the extraction loop in `getScheduledEvents`, for a
single topic.  Results: `.error` models a Go index-out-of-range panic,
`.ok none` a silently dropped title, `.ok (some e)` an appended record.
The source indexes `fields[0]`, `fields[1]`, `fields[2]` and (behind the
short-circuiting `&&`, only when `fields[2] == "-"`) `fields[3]` without
any bounds check, so each of those accesses panics when the token list is
too short. -/
def parseTopic (t : Topic) : Except GoPanic (Option HackerspaceEvents) :=
  match fieldsOf t.title with
  | [] => .error .indexOutOfRange
  | f0 :: rest0 =>
    if matchesYear f0 then
      match rest0 with
      | [] => .error .indexOutOfRange
      | f1 :: rest1 =>
        if matchesHour f1 then
          match rest1 with
          | [] => .error .indexOutOfRange
          | f2 :: rest2 =>
            if f2 = "-" then
              match rest2 with
              | [] => .error .indexOutOfRange
              | f3 :: rest3 =>
                if matchesHour f3 then
                  .ok (some { title := joinSpace rest3, date := f0,
                              begin := f1, endTime := f3,
                              url := eventURL t.slug t.id })
                else
                  .ok (some { title := joinSpace (f2 :: rest2), date := f0,
                              begin := f1, endTime := "",
                              url := eventURL t.slug t.id })
            else
              .ok (some { title := joinSpace (f2 :: rest2), date := f0,
                          begin := f1, endTime := "",
                          url := eventURL t.slug t.id })
        else .ok none
    else .ok none

/-- The extraction loop of `getScheduledEvents` over the whole topic list:
records are appended in input order; a panic in any iteration aborts the
whole run. -/
def parseTopics : List Topic → Except GoPanic (List HackerspaceEvents)
  | [] => .ok []
  | t :: ts =>
    match parseTopic t with
    | .error e => .error e
    | .ok none => parseTopics ts
    | .ok (some ev) =>
      match parseTopics ts with
      | .error e => .error e
      | .ok evs => .ok (ev :: evs)

/-- The possible outcomes of `httpClient.Get` plus `ioutil.ReadAll`:
`netErr` is a non-nil error from `Get` (the response pointer is nil),
`readErr` a non-nil error from `ReadAll` after a successful `Get`, and
`success` a fully read body. -/
inductive FetchResult where
  | netErr
  | readErr (body : String)
  | success (body : String)
  deriving Repr, DecidableEq

/-- `fetchHTTPResource`: returns the body together with the error flag the
caller inspects (`true` means a non-nil error was returned).  When `Get`
itself fails, `check(err)` only logs, and `defer response.Body.Close()`
then dereferences the nil response pointer: a runtime panic, modelled as
`.error .nilDereference`. -/
def fetchHTTPResource : FetchResult → Except GoPanic (String × Bool)
  | .netErr => .error .nilDereference
  | .readErr b => .ok (b, true)
  | .success b => .ok (b, false)

/-- `getScheduledEvents` as a state transformer on the published event set
`spaceEvents.Events`.  `decode` stands for `json.Unmarshal` into
`DiscourseApi`: `none` models a decode error, after which `check` only
logs and `dat` keeps its zero value (an empty topic list).  The result is
the new value of `spaceEvents.Events` (it is replaced only when the
extracted list is non-empty), or the panic that aborted the call. -/
def getScheduledEvents (decode : String → Option (List Topic))
    (r : FetchResult) (prev : List HackerspaceEvents) :
    Except GoPanic (List HackerspaceEvents) :=
  match fetchHTTPResource r with
  | .error e => .error e
  | .ok (body, hasErr) =>
    if hasErr then .ok prev
    else
      match parseTopics ((decode body).getD []) with
      | .error e => .error e
      | .ok ret => .ok (if ret.length > 0 then ret else prev)

/-- The occupancy state shared through the globals `peoplePresent`,
`spaceStatus` and `lastChange` (Go `int` / `bool` / `int64`). -/
structure SpaceState where
  peoplePresent : Int
  spaceStatus : Bool
  lastChange : Int
  deriving Repr, DecidableEq

/-- One loop iteration of `updateStatus`, i.e. handling one value received
from `statusChan`: inside the lock, the previous count is saved, the count
is overwritten, the open flag is recomputed as `count > 0`, and the change
timestamp is set to the current wall-clock time (`now`) only when the
count actually changed. -/
def updateStatusStep (s : SpaceState) (numOfPeople : Int) (now : Int) :
    SpaceState :=
  let previousPeoplePresent := s.peoplePresent
  { peoplePresent := numOfPeople,
    spaceStatus := decide (numOfPeople > 0),
    lastChange := if previousPeoplePresent ≠ numOfPeople then now
                  else s.lastChange }

/-- A whole sequence of ingested values, each paired with the wall-clock
time at which it is handled. -/
def runIngest (s : SpaceState) : List (Int × Int) → SpaceState
  | [] => s
  | (c, t) :: rest => runIngest (updateStatusStep s c t) rest

/-- The topic of the spec's literal range example. -/
def lockpickingTopic : Topic :=
  ⟨42, "12/05/2024 18:00 - 20:00 Lockpicking Workshop", "lockpicking-night"⟩

/-- The record the range example extracts to. -/
def lockpickingEvent : HackerspaceEvents :=
  { title := "Lockpicking Workshop", date := "12/05/2024", begin := "18:00",
    endTime := "20:00",
    url := "https://community.lambdaspace.gr/t/lockpicking-night/42" }

/-- The topic of the spec's literal fallback (no range) example. -/
def meetupTopic : Topic :=
  ⟨7, "12/05/2024 18:00 General Meetup", "general-meetup"⟩

/-- The record the fallback example extracts to. -/
def meetupEvent : HackerspaceEvents :=
  { title := "General Meetup", date := "12/05/2024", begin := "18:00",
    endTime := "",
    url := "https://community.lambdaspace.gr/t/general-meetup/7" }

/-- A decode whose only topic is rejected by the extractor, so extraction
yields zero records. -/
def decodeNothing : String → Option (List Topic) :=
  fun _ => some [⟨1, "Open Social Night", "social"⟩]

/-- A decode whose only topic extracts to `lockpickingEvent`. -/
def decodeGood : String → Option (List Topic) :=
  fun _ => some [lockpickingTopic]

/-- Claim C1: the claim says a title with fewer than 2 tokens is treated as
non-matching and dropped without an out-of-bounds failure.  The code
instead panics: an empty title makes `fields[0]` index an empty slice, a
whitespace-only title likewise, and a single-token title matching the date
pattern makes `fields[1]` index out of range, aborting the whole
extraction run. -/
theorem extract_short_title_panics :
    parseTopic ⟨1, "", "s"⟩ = .error .indexOutOfRange ∧
    parseTopic ⟨2, "   ", "s"⟩ = .error .indexOutOfRange ∧
    parseTopic ⟨3, "12/05/2024", "s"⟩ = .error .indexOutOfRange ∧
    parseTopics [lockpickingTopic, ⟨3, "12/05/2024", "s"⟩]
      = .error .indexOutOfRange :=
  ⟨rfl, rfl, rfl, rfl⟩

/-- Claim C2: the claim says every fetch outcome (network error, malformed
payload, empty body) leaves the published set untouched and never
escalates to termination.  On a network error the code panics: `check`
only logs the error, and the deferred `response.Body.Close()` then
dereferences the nil response pointer, which kills the goroutine and the
process.  The malformed-payload and empty-body outcomes do behave as
claimed (previous set kept). -/
theorem refresh_network_error_panics :
    getScheduledEvents decodeGood .netErr [lockpickingEvent]
      = .error .nilDereference ∧
    getScheduledEvents (fun _ => none) (.success "not json") [lockpickingEvent]
      = .ok [lockpickingEvent] ∧
    getScheduledEvents (fun _ => none) (.success "") [lockpickingEvent]
      = .ok [lockpickingEvent] :=
  ⟨rfl, rfl, rfl⟩

/-- Claim C7: the literal range example: the title
"12/05/2024 18:00 - 20:00 Lockpicking Workshop" with slug
"lockpicking-night" and id 42 extracts to exactly the expected record,
including the URL built from slug and id. -/
theorem extract_range_example :
    parseTopics [lockpickingTopic] = .ok [lockpickingEvent] :=
  rfl

/-- Claim C8: the literal fallback example: a title with date and time but
no "-" range extracts with `begin` set, `end` empty, and the title joined
from all tokens from index 2 on. -/
theorem extract_fallback_example :
    parseTopics [meetupTopic] = .ok [meetupEvent] :=
  rfl

/-- Claim C3: after any non-empty sequence of ingested counts (arbitrary
integers, negative ones included), the stored open flag equals
`count > 0`. -/
theorem ingest_open_invariant (s : SpaceState) (calls : List (Int × Int))
    (h : calls ≠ []) :
    ((runIngest s calls).spaceStatus = true ↔
      0 < (runIngest s calls).peoplePresent) := by
  induction calls generalizing s with
  | nil => exact absurd rfl h
  | cons p rest ih =>
    obtain ⟨c, t⟩ := p
    cases rest with
    | nil =>
      simp [runIngest, updateStatusStep]
    | cons q rest2 =>
      exact ih (updateStatusStep s c t) (by simp)

/-- Witness for `ingest_open_invariant` at the concrete trace
ingest −3, then ingest 2. -/
theorem ingest_open_invariant_witness :
    ([((-3 : Int), (5 : Int)), (2, 9)] ≠ ([] : List (Int × Int))) ∧
    ((runIngest ⟨0, false, 0⟩ [(-3, 5), (2, 9)]).spaceStatus = true ↔
      0 < (runIngest ⟨0, false, 0⟩ [(-3, 5), (2, 9)]).peoplePresent) :=
  ⟨by simp, ingest_open_invariant ⟨0, false, 0⟩ [(-3, 5), (2, 9)] (by simp)⟩

/-- Repeating the same count leaves `lastChange` where it is, because the
stored count already equals the repeated value. -/
theorem runIngest_same_count (s : SpaceState) (c : Int) (times : List Int)
    (h : s.peoplePresent = c) :
    (runIngest s (times.map fun t => (c, t))).lastChange = s.lastChange := by
  induction times generalizing s with
  | nil => rfl
  | cons t rest ih =>
    have hr := ih (updateStatusStep s c t) (by simp [updateStatusStep])
    simp only [List.map, runIngest] at hr ⊢
    rw [hr]
    simp [updateStatusStep, h]

/-- Claim C4: for consecutive ingestions `Ingest(c1); Ingest(c2)` the
change timestamp is set to the second call's wall-clock time exactly when
`c1 ≠ c2`, and any number of further ingestions of the same count `c1`
after the first leaves the timestamp untouched. -/
theorem ingest_change_detection (s : SpaceState) (c1 c2 t1 t2 : Int)
    (times : List Int) :
    ((updateStatusStep (updateStatusStep s c1 t1) c2 t2).lastChange
        = if c1 = c2 then (updateStatusStep s c1 t1).lastChange else t2) ∧
    ((runIngest (updateStatusStep s c1 t1)
        (times.map fun t => (c1, t))).lastChange
        = (updateStatusStep s c1 t1).lastChange) := by
  constructor
  · by_cases hc : c1 = c2 <;> simp [updateStatusStep, hc]
  · exact runIngest_same_count _ c1 times (by simp [updateStatusStep])

/-- Claim C5, counterexample to the reporting half: `getScheduledEvents`
has no return value, so a refresh whose extraction comes back empty is
observationally identical to a successful refresh that republished the
same set — the caller receives no non-success report of any kind.  Here
the left run extracts zero records (its only topic is rejected) and the
right run successfully extracts and publishes exactly the previous set;
the two outcomes coincide. -/
theorem refresh_no_failure_report :
    getScheduledEvents decodeNothing (.success "body") [lockpickingEvent]
      = getScheduledEvents decodeGood (.success "body") [lockpickingEvent] :=
  rfl

/-- Claim C5, amended: when extraction yields zero records, the previously
published event set is left unchanged and an empty set is never published;
the call simply returns (it has no success indicator to report). -/
theorem refresh_empty_keeps_previous (decode : String → Option (List Topic))
    (body : String) (prev : List HackerspaceEvents)
    (h : parseTopics ((decode body).getD []) = .ok []) :
    getScheduledEvents decode (.success body) prev = .ok prev := by
  simp [getScheduledEvents, fetchHTTPResource, h]

/-- Witness for `refresh_empty_keeps_previous`: a body decoding to one
rejected topic leaves the published singleton set in place. -/
theorem refresh_empty_keeps_previous_witness :
    parseTopics ((decodeNothing "body").getD []) = .ok [] ∧
    getScheduledEvents decodeNothing (.success "body") [lockpickingEvent]
      = .ok [lockpickingEvent] :=
  ⟨rfl, refresh_empty_keeps_previous decodeNothing "body" [lockpickingEvent] rfl⟩

/-- The record, if any, that a single topic contributes to the output. -/
def topicRecord (t : Topic) : Option HackerspaceEvents :=
  match parseTopic t with
  | .ok (some e) => some e
  | _ => none

/-- Claim C9: whenever the extraction loop finishes without a panic, its
output is exactly the in-order selection of the records of the input
topics, so the relative order of any two contributing topics is preserved
in the output. -/
theorem extraction_preserves_order (ts : List Topic)
    (out : List HackerspaceEvents) (h : parseTopics ts = .ok out) :
    out = ts.filterMap topicRecord := by
  induction ts generalizing out with
  | nil =>
    simp only [parseTopics] at h
    cases h
    rfl
  | cons t rest ih =>
    simp only [parseTopics] at h
    cases hp : parseTopic t with
    | error e => rw [hp] at h; cases h
    | ok o =>
      rw [hp] at h
      cases o with
      | none =>
        simp [List.filterMap_cons, topicRecord, hp]
        exact ih out h
      | some ev =>
        cases hr : parseTopics rest with
        | error e => rw [hr] at h; cases h
        | ok evs =>
          rw [hr] at h
          cases h
          simp [List.filterMap_cons, topicRecord, hp]
          exact ih evs hr

/-- Witness for `extraction_preserves_order` on a two-topic input where
both topics contribute a record. -/
theorem extraction_preserves_order_witness :
    parseTopics [lockpickingTopic, meetupTopic]
      = .ok [lockpickingEvent, meetupEvent] ∧
    [lockpickingEvent, meetupEvent]
      = [lockpickingTopic, meetupTopic].filterMap topicRecord :=
  ⟨rfl, extraction_preserves_order [lockpickingTopic, meetupTopic]
    [lockpickingEvent, meetupEvent] rfl⟩

/-- Claim C6, counterexample: the claim says a first token with trailing
extra characters such as "12/05/20245", or a second token such as
"18:005", is dropped.  The regexes are anchored only at the start, so this
title is accepted and yields a record whose date and begin fields carry
the trailing characters. -/
theorem loose_pattern_counterexample :
    parseTopics [⟨1, "12/05/20245 18:005 Party", "s"⟩]
      = .ok [{ title := "Party", date := "12/05/20245", begin := "18:005",
               endTime := "",
               url := "https://community.lambdaspace.gr/t/s/1" }] :=
  rfl

/-- Claim C6, amended: a record is produced only if the title's first token
starts with DD/DD/DDDD and its second token starts with DD:DD (start
anchors only — trailing characters are allowed, and the full tokens are
stored as date and begin); a title with at least one token whose first
token fails the date start-pattern is silently dropped, as is a title
with at least two tokens whose first token passes but whose second fails
the time start-pattern. -/
theorem pattern_gate_characterization (t : Topic) :
    (∀ e, parseTopic t = .ok (some e) →
        ∃ f0 f1 rest, fieldsOf t.title = f0 :: f1 :: rest ∧
          matchesYear f0 = true ∧ matchesHour f1 = true ∧
          e.date = f0 ∧ e.begin = f1) ∧
    (∀ f0 rest, fieldsOf t.title = f0 :: rest → matchesYear f0 = false →
        parseTopic t = .ok none) ∧
    (∀ f0 f1 rest, fieldsOf t.title = f0 :: f1 :: rest →
        matchesYear f0 = true → matchesHour f1 = false →
        parseTopic t = .ok none) := by
  refine ⟨?_, ?_, ?_⟩
  · intro e he
    unfold parseTopic at he
    rcases hf : fieldsOf t.title with _ | ⟨f0, _ | ⟨f1, rest⟩⟩ <;> rw [hf] at he
    · cases he
    · by_cases hy : matchesYear f0 <;> simp [hy] at he
    · refine ⟨f0, f1, rest, rfl, ?_⟩
      by_cases hy : matchesYear f0
      · by_cases hh : matchesHour f1
        · refine ⟨hy, hh, ?_⟩
          rcases rest with _ | ⟨f2, rest2⟩ <;> simp [hy, hh] at he
          by_cases h2 : f2 = "-"
          · rcases rest2 with _ | ⟨f3, rest3⟩ <;> simp [h2] at he
            by_cases h3 : matchesHour f3 <;> simp [h3] at he <;>
              simp [← he]
          · simp [h2] at he
            simp [← he]
        · simp [hy, hh] at he
      · simp [hy] at he
  · intro f0 rest hf hy
    unfold parseTopic
    rw [hf]
    simp [hy]
  · intro f0 f1 rest hf hy hh
    unfold parseTopic
    rw [hf]
    simp [hy, hh]

/-- Witness for `pattern_gate_characterization`: a title whose first token
is not date-like is dropped. -/
theorem pattern_gate_characterization_witness :
    parseTopic ⟨1, "Open Social Night", "social"⟩ = .ok none :=
  (pattern_gate_characterization ⟨1, "Open Social Night", "social"⟩).2.1
    "Open" ["Social", "Night"] rfl rfl
